import Mathlib

/-!
Shallow embedding of the match-state engine in src/main.js.

JavaScript numbers are modelled by `JSNum`: NaN, the two infinities, and
finite values as rationals.  The handlers only ever combine inputs with
`Math.max`, `Math.min`, `+` and `-`, and the properties at stake are range
memberships that floating-point rounding cannot cross (clamping bounds are
exactly representable and `fl(a-b) <= a` for `b >= 0`), so rationals are a
faithful carrier for the finite case.  Request fields that may be absent or
non-numeric are `JSVal` (`typeof x === 'number'` is the `num` case).

Wall-clock data (`joinedAt`, event timestamps, the `Date.now()` part of the
generated player id) is not modelled: ids generated at join time are passed
in as an explicit `freshId` argument.  Falsy string ids (`!playerId`) are
modelled by the empty string.  Event-log entries keep the event kind and its
interpolated parameters but not the timestamp strings.
-/

inductive JSNum
  | nan : JSNum
  | inf : Bool → JSNum
  | fin : ℚ → JSNum
deriving DecidableEq

/-- A request-body field: a JS number, or anything with `typeof` ≠ 'number'. -/
inductive JSVal
  | num : JSNum → JSVal
  | other : JSVal
deriving DecidableEq

/-- `Math.max` on two JS numbers: NaN-propagating. -/
def jsMax (a b : JSNum) : JSNum :=
  match a, b with
  | .nan, _ => .nan
  | _, .nan => .nan
  | .inf true, _ => .inf true
  | _, .inf true => .inf true
  | .inf false, b => b
  | a, .inf false => a
  | .fin x, .fin y => .fin (max x y)

/-- `Math.min` on two JS numbers: NaN-propagating. -/
def jsMin (a b : JSNum) : JSNum :=
  match a, b with
  | .nan, _ => .nan
  | _, .nan => .nan
  | .inf false, _ => .inf false
  | _, .inf false => .inf false
  | .inf true, b => b
  | a, .inf true => a
  | .fin x, .fin y => .fin (min x y)

def jsNeg : JSNum → JSNum
  | .nan => .nan
  | .inf s => .inf (!s)
  | .fin x => .fin (-x)

/-- Exact rational addition, spelled with `mkRat` so that concrete values
    kernel-reduce (`Rat.add` is irreducible); `ratAdd_eq` identifies it
    with `+`. -/
def ratAdd (x y : ℚ) : ℚ := mkRat (x.num * y.den + y.num * x.den) (x.den * y.den)

theorem ratAdd_eq (x y : ℚ) : ratAdd x y = x + y := by
  rw [ratAdd, Rat.add_def]
  simp [Rat.normalize_eq_mkRat, Int.mul_comm]

/-- JS `+` on numbers: `∞ + (-∞) = NaN`, NaN-propagating. -/
def jsAdd (a b : JSNum) : JSNum :=
  match a, b with
  | .nan, _ => .nan
  | _, .nan => .nan
  | .inf s, .inf t => if s = t then .inf s else .nan
  | .inf s, .fin _ => .inf s
  | .fin _, .inf t => .inf t
  | .fin x, .fin y => .fin (ratAdd x y)

/-- JS `-` on numbers. -/
def jsSub (a b : JSNum) : JSNum := jsAdd a (jsNeg b)

/-- JS `<` on numbers: any comparison with NaN is false. -/
def jsLt : JSNum → JSNum → Bool
  | .nan, _ => false
  | _, .nan => false
  | .inf true, _ => false
  | _, .inf false => false
  | .inf false, _ => true
  | _, .inf true => true
  | .fin x, .fin y => decide (x < y)

/-- `Number.isInteger`: finite with denominator 1; false on NaN and ±∞. -/
def jsIsInt : JSNum → Bool
  | .fin q => decide (q.den = 1)
  | _ => false

/-- JS truthiness of a number: NaN and 0 are falsy. -/
def jsTruthy : JSNum → Bool
  | .nan => false
  | .inf _ => true
  | .fin q => decide (q ≠ 0)

/-- `x || 0` on a JS number. -/
def jsOrZero (n : JSNum) : JSNum := if jsTruthy n then n else .fin 0

def jsToNat : JSNum → Nat
  | .fin q => q.num.toNat
  | _ => 0

inductive Team
  | blue
  | red
deriving DecidableEq

/-- One entry of the `teams` object of src/main.js. -/
structure TeamRec where
  name : String
  flagsCaptured : Nat
  color : String
deriving DecidableEq

/-- A value of the `players` map.  `joinedAt` (wall clock) is not modelled. -/
structure Player where
  id : String
  number : Nat
  code : Nat
  name : String
  ip : String
  team : Team
  kills : JSNum
  health : JSNum
deriving DecidableEq

/-- One `logEvent` call site with its interpolated parameters
    (timestamps omitted). -/
inductive GEvent
  | join (name : String) (code : Nat) (team : Team) (ip : String)
  | leave (name : String) (code : Nat)
  | capture (name : String) (code : Nat) (team : Team)
  | obtain (name : String) (code : Nat) (prev : Option String)
  | respawn (name : String) (code : Nat)
  | attack (aname : String) (acode : Nat) (tname : String) (tcode : Nat)
      (dmg : JSNum) (killed : Bool)
  | kill (aname : String) (acode : Nat) (tname : String) (tcode : Nat)
  | heal (healer : Option String) (tname : String) (tcode : Nat) (amt : JSNum)
  | teamChange (name : String) (code : Nat) (team : Team)
  | restarted
deriving DecidableEq

/-- The whole mutable state of src/main.js (players map as an
    insertion-ordered association list, like a JS `Map`). -/
structure GameState where
  players : List Player
  blueTeam : TeamRec
  redTeam : TeamRec
  nextPlayerNumber : Nat
  flagHolder : Option String
  events : List GEvent
deriving DecidableEq

/-- The state at module load: empty players map, the two team records,
    counter 4, no holder, empty log. -/
def initState : GameState :=
  { players := []
  , blueTeam := { name := "Blue", flagsCaptured := 0, color := "#0066ff" }
  , redTeam := { name := "Red", flagsCaptured := 0, color := "#ff3333" }
  , nextPlayerNumber := 4
  , flagHolder := none
  , events := [] }

/-- `players.has(id)`. -/
def hasPlayer (st : GameState) (id : String) : Bool :=
  st.players.any (fun p => p.id == id)

/-- `players.get(id)`. -/
def getPlayer (st : GameState) (id : String) : Option Player :=
  st.players.find? (fun p => p.id == id)

/-- `players.set(p.id, p)`: replace in place if the key exists, else append. -/
def setPlayer (ps : List Player) (p : Player) : List Player :=
  if ps.any (fun q => q.id == p.id) then
    ps.map (fun q => if q.id == p.id then p else q)
  else ps ++ [p]

/-- Mutating the object obtained from `players.get(id)` through `f`. -/
def updatePlayer (ps : List Player) (id : String) (f : Player → Player) :
    List Player :=
  ps.map (fun q => if q.id == id then f q else q)

/-- `players.delete(id)`. -/
def delPlayer (ps : List Player) (id : String) : List Player :=
  ps.filter (fun q => !(q.id == id))

/-- `logEvent`: push, then `shift()` once when the length exceeds 2000. -/
def logEvent (es : List GEvent) (e : GEvent) : List GEvent :=
  let es2 := es ++ [e]
  if es2.length > 2000 then es2.drop 1 else es2

def countTeam (st : GameState) (t : Team) : Nat :=
  (st.players.filter (fun p => p.team == t)).length

/-- `assignTeam()` of src/main.js line 44. -/
def assignTeam (st : GameState) : Team :=
  if countTeam st .blue ≤ countTeam st .red then .blue else .red

/-- HTTP status of a handler's response. -/
inductive HStatus
  | ok
  | badRequest
  | notFound
  | conflict
deriving DecidableEq

/-- The guard of the join handler, negated: `code` is a number and none of
    `code < 0`, `code > 99`, `!Number.isInteger(code)` holds. -/
def validCode : JSVal → Bool
  | .num c => !(jsLt c (.fin 0)) && !(jsLt (.fin 99) c) && jsIsInt c
  | .other => false

/-- The (integer) value of a validated join code, as a natural number. -/
def codeNatOf : JSVal → Nat
  | .num c => jsToNat c
  | .other => 0

def codeUsed (st : GameState) (c : Nat) : Bool :=
  st.players.any (fun p => p.code == c)

def ipUsed (st : GameState) (ip : String) : Bool :=
  st.players.any (fun p => p.ip == ip)

/-- The player object built by the join handler (line 97). -/
def mkPlayer (st : GameState) (codeN : Nat) (ip freshId : String) : Player :=
  { id := freshId
  , number := st.nextPlayerNumber
  , code := codeN
  , name := "Player " ++ toString codeN
  , ip := ip
  , team := assignTeam st
  , kills := .fin 0
  , health := .fin 100 }

/-- POST /api/player/join. -/
def joinF (st : GameState) (code : JSVal) (ip freshId : String) :
    HStatus × GameState :=
  if !(validCode code) then (.badRequest, st)
  else
    let codeN := codeNatOf code
    if codeUsed st codeN then (.conflict, st)
    else if ipUsed st ip then (.conflict, st)
    else
      let player := mkPlayer st codeN ip freshId
      let st1 := { st with
        players := setPlayer st.players player
        nextPlayerNumber := st.nextPlayerNumber + 1 }
      (.ok, { st1 with
        events := logEvent st1.events (.join player.name codeN player.team ip) })

/-- POST /api/player/update. -/
def updateF (st : GameState) (playerId : String) (kills health : JSVal) :
    HStatus × GameState :=
  if playerId == "" || !(hasPlayer st playerId) then (.notFound, st)
  else
    (.ok, { st with players := updatePlayer st.players playerId (fun p =>
      let p1 := match kills with
        | .num k => { p with kills := jsMax (.fin 0) k }
        | .other => p
      match health with
        | .num h => { p1 with health := jsMax (.fin 0) (jsMin (.fin 100) h) }
        | .other => p1) })

/-- DELETE /api/player/:id — clears the flag holder when the removed player
    holds it, then logs a leave event. -/
def removeF (st : GameState) (id : String) : HStatus × GameState :=
  match st.players.find? (fun p => p.id == id) with
  | none => (.notFound, st)
  | some p =>
    let st1 := { st with
      flagHolder := if st.flagHolder = some id then none else st.flagHolder
      players := delPlayer st.players id }
    (.ok, { st1 with events := logEvent st1.events (.leave p.name p.code) })

/-- POST /api/player/leave (legacy) — deletes the player only: no flag-holder
    clearing and no event, exactly as in src/main.js lines 241-250. -/
def leaveF (st : GameState) (playerId : String) : HStatus × GameState :=
  if playerId == "" || !(hasPlayer st playerId) then (.notFound, st)
  else (.ok, { st with players := delPlayer st.players playerId })

def bumpFlags (st : GameState) : Team → GameState
  | .blue => { st with blueTeam :=
      { st.blueTeam with flagsCaptured := st.blueTeam.flagsCaptured + 1 } }
  | .red => { st with redTeam :=
      { st.redTeam with flagsCaptured := st.redTeam.flagsCaptured + 1 } }

/-- POST /api/flag/capture.  The source's `!teams[teamKey]` guard (line 153)
    is unreachable here because `team` is the two-valued `Team` type. -/
def captureF (st : GameState) (playerId : String) : HStatus × GameState :=
  if playerId == "" || !(hasPlayer st playerId) then (.notFound, st)
  else
    match st.players.find? (fun p => p.id == playerId) with
    | none => (.notFound, st)
    | some player =>
      if st.flagHolder ≠ some playerId then (.badRequest, st)
      else
        let st1 := bumpFlags st player.team
        let st2 := { st1 with flagHolder := none }
        (.ok, { st2 with
          events := logEvent st2.events (.capture player.name player.code player.team) })

/-- POST /api/flag/obtain. -/
def obtainF (st : GameState) (playerId : String) : HStatus × GameState :=
  if playerId == "" || !(hasPlayer st playerId) then (.notFound, st)
  else
    match st.players.find? (fun p => p.id == playerId) with
    | none => (.notFound, st)
    | some p =>
      let prev := st.flagHolder
      let st1 := { st with flagHolder := some playerId }
      (.ok, { st1 with events := logEvent st1.events (.obtain p.name p.code prev) })

/-- `const dmg = typeof damage === 'number' ? Math.max(0, damage) : 10`. -/
def dmgOf : JSVal → JSNum
  | .num d => jsMax (.fin 0) d
  | .other => .fin 10

/-- The body of the attack handler after all guards have passed. -/
def attackApply (st : GameState) (attacker target : Player) (dmg : JSNum) :
    Bool × GameState :=
  let newHealth := jsMax (.fin 0) (jsSub target.health dmg)
  let killed := decide (newHealth = .fin 0)
  let st1 := { st with
    players := updatePlayer st.players target.id (fun p => { p with health := newHealth }) }
  let st2 :=
    if killed then
      let stk := { st1 with players := (updatePlayer st1.players attacker.id
        (fun p => { p with kills := jsAdd (jsOrZero p.kills) (.fin 1) })) }
      let stf := { stk with flagHolder :=
        if stk.flagHolder = some target.id then none else stk.flagHolder }
      let str := { stf with players := (updatePlayer stf.players target.id
        (fun p => { p with health := .fin 100 })) }
      { str with events := logEvent str.events (.respawn target.name target.code) }
    else st1
  let st3 := { st2 with events := (logEvent st2.events
    (.attack attacker.name attacker.code target.name target.code dmg killed)) }
  let st4 :=
    if killed then
      { st3 with events := (logEvent st3.events
        (.kill attacker.name attacker.code target.name target.code)) }
    else st3
  (killed, st4)

/-- POST /api/player/attack. -/
def attackF (st : GameState) (attackerId targetId : String) (damage : JSVal) :
    HStatus × Bool × GameState :=
  if attackerId == "" || !(hasPlayer st attackerId) then (.notFound, false, st)
  else if targetId == "" || !(hasPlayer st targetId) then (.notFound, false, st)
  else if attackerId == targetId then (.badRequest, false, st)
  else
    match st.players.find? (fun p => p.id == attackerId),
          st.players.find? (fun p => p.id == targetId) with
    | some attacker, some target =>
      let r := attackApply st attacker target (dmgOf damage)
      (.ok, r.1, r.2)
    | _, _ => (.notFound, false, st)

/-- `const amt = typeof amount === 'number' ? Math.max(0, amount) : 20`. -/
def amtOf : JSVal → JSNum
  | .num a => jsMax (.fin 0) a
  | .other => .fin 20

/-- POST /api/player/heal. -/
def healF (st : GameState) (healerId targetId : String) (amount : JSVal) :
    HStatus × GameState :=
  let amt := amtOf amount
  if targetId == "" || !(hasPlayer st targetId) then (.notFound, st)
  else if healerId != "" && !(hasPlayer st healerId) then (.notFound, st)
  else
    match st.players.find? (fun p => p.id == targetId) with
    | none => (.notFound, st)
    | some target =>
      let st1 := { st with players := (updatePlayer st.players targetId (fun p =>
        { p with health := jsMax (.fin 0) (jsMin (.fin 100) (jsAdd p.health amt)) })) }
      let healerName := if healerId == "" then none
        else (getPlayer st healerId).map (fun h => h.name)
      (.ok, { st1 with events :=
        (logEvent st1.events (.heal healerName target.name target.code amt)) })

/-- POST /api/player/changeTeam — `team` is `none` when the request field is
    missing or not one of the two valid team keys. -/
def changeTeamF (st : GameState) (playerId : String) (team : Option Team) :
    HStatus × GameState :=
  if playerId == "" || !(hasPlayer st playerId) then (.notFound, st)
  else
    match team with
    | none => (.badRequest, st)
    | some t =>
      match st.players.find? (fun p => p.id == playerId) with
      | none => (.notFound, st)
      | some p =>
        let st1 := { st with players := (updatePlayer st.players playerId
          (fun q => { q with team := t })) }
        (.ok, { st1 with events := logEvent st1.events (.teamChange p.name p.code t) })

/-- POST /api/restart. -/
def restartF (st : GameState) : HStatus × GameState :=
  let st1 := { st with
    players := []
    blueTeam := { st.blueTeam with flagsCaptured := 0 }
    redTeam := { st.redTeam with flagsCaptured := 0 }
    flagHolder := none
    events := []
    nextPlayerNumber := 4 }
  (.ok, { st1 with events := logEvent st1.events .restarted })

/-- GET /api/events — returns the log as stored (oldest first). -/
def eventsF (st : GameState) : List GEvent := st.events

/-- One request against the engine (the state-mutating endpoints). -/
inductive Op
  | join (code : JSVal) (ip freshId : String)
  | update (playerId : String) (kills health : JSVal)
  | remove (id : String)
  | leave (playerId : String)
  | obtain (playerId : String)
  | capture (playerId : String)
  | attack (attackerId targetId : String) (damage : JSVal)
  | heal (healerId targetId : String) (amount : JSVal)
  | changeTeam (playerId : String) (team : Option Team)
  | restart
deriving DecidableEq

def step (st : GameState) : Op → GameState
  | .join c ip f => (joinF st c ip f).2
  | .update pid k h => (updateF st pid k h).2
  | .remove id => (removeF st id).2
  | .leave pid => (leaveF st pid).2
  | .obtain pid => (obtainF st pid).2
  | .capture pid => (captureF st pid).2
  | .attack aid tid d => (attackF st aid tid d).2.2
  | .heal hid tid a => (healF st hid tid a).2
  | .changeTeam pid t => (changeTeamF st pid t).2
  | .restart => (restartF st).2

def applyOps (st : GameState) (ops : List Op) : GameState :=
  ops.foldl step st

def playerNumber (st : GameState) (id : String) : Option Nat :=
  (getPlayer st id).map (fun p => p.number)

def playerHealth (st : GameState) (id : String) : Option JSNum :=
  (getPlayer st id).map (fun p => p.health)

def playerKills (st : GameState) (id : String) : Option JSNum :=
  (getPlayer st id).map (fun p => p.kills)

def playerTeam (st : GameState) (id : String) : Option Team :=
  (getPlayer st id).map (fun p => p.team)

def teamFlags (st : GameState) : Team → Nat
  | .blue => st.blueTeam.flagsCaptured
  | .red => st.redTeam.flagsCaptured

/-- The health range asserted by the spec: a finite value in [0,100]. -/
def goodHealth : JSNum → Bool
  | .fin q => decide (0 ≤ q ∧ q ≤ 100)
  | _ => false

def c1ops : List Op := [.join (.num (.fin 7)) "ipA" "p1", .obtain "p1", .leave "p1"]

/-- C1: the flag-holder invariant fails on the code: after a player joins,
    obtains the flag and is removed through POST /api/player/leave, the
    player is gone from the players map but flagHolder still references
    their id (the leave handler, unlike the DELETE handler, never clears
    the holder). -/
theorem spec_C1_bug :
    (applyOps initState c1ops).flagHolder = some "p1" ∧
    hasPlayer (applyOps initState c1ops) "p1" = false := by
  exact ⟨by decide, by decide⟩

def c3ops : List Op := [.join (.num (.fin 7)) "ipA" "p1", .update "p1" .other (.num .nan)]

/-- C3 counterexample: updating a freshly joined player's health with NaN
    (a JS number, so it passes the typeof guard) drives the stored health to
    NaN, which is not a value in [0,100]. -/
theorem spec_C3_cex :
    playerHealth (applyOps initState c3ops) "p1" = some .nan ∧
    goodHealth .nan = false := by
  exact ⟨by decide, by decide⟩

def c9opsA : List Op := [.join (.num (.fin 1)) "ipA" "pa"]

def c9opsB : List Op := c9opsA ++ [.restart, .join (.num (.fin 2)) "ipB" "pb"]

/-- C9 counterexample: a join before a restart and a join after it both
    receive display number 4, so the later joiner's number is not strictly
    greater — restart resets the counter, breaking process-lifetime
    monotonicity. -/
theorem spec_C9_cex :
    playerNumber (applyOps initState c9opsA) "pa" = some 4 ∧
    playerNumber (applyOps initState c9opsB) "pb" = some 4 ∧
    ¬ (4 : Nat) < 4 := by
  exact ⟨by decide, by decide, by decide⟩

def c10ops : List Op := [.join (.num (.fin 1)) "ipA" "pa", .obtain "pa", .capture "pa"]

/-- C10 counterexample: after one successful capture the blue counter is 1,
    and Restart — an operation that is not a successful CaptureFlag —
    changes it to 0. -/
theorem spec_C10_cex :
    teamFlags (applyOps initState c10ops) .blue = 1 ∧
    teamFlags (step (applyOps initState c10ops) .restart) .blue = 0 := by
  exact ⟨by decide, by decide⟩

/-- C8: from any state, Restart empties the players map, zeroes both teams'
    capture counters, clears the flag holder, resets the next-player-number
    counter to 4, and leaves the event log holding exactly the single
    restart event appended after clearing. -/
theorem spec_C8 (st : GameState) :
    (restartF st).2.players = [] ∧
    (restartF st).2.blueTeam.flagsCaptured = 0 ∧
    (restartF st).2.redTeam.flagsCaptured = 0 ∧
    (restartF st).2.flagHolder = none ∧
    (restartF st).2.nextPlayerNumber = 4 ∧
    (restartF st).2.events = [GEvent.restarted] := by
  exact ⟨rfl, rfl, rfl, rfl, rfl, rfl⟩

def otherTeam : Team → Team
  | .blue => .red
  | .red => .blue

theorem teamFlags_bumpFlags_self (st : GameState) (t : Team) :
    teamFlags (bumpFlags st t) t = teamFlags st t + 1 := by
  cases t <;> rfl

theorem teamFlags_bumpFlags_other (st : GameState) (t : Team) :
    teamFlags (bumpFlags st t) (otherTeam t) = teamFlags st (otherTeam t) := by
  cases t <;> rfl

theorem bumpFlags_flagHolder (st : GameState) (t : Team) :
    (bumpFlags st t).flagHolder = st.flagHolder := by
  cases t <;> rfl

/-- The state produced by a successful capture by player `p`. -/
def captureSucc (st : GameState) (p : Player) : GameState :=
  { bumpFlags st p.team with
    flagHolder := none
    events := (logEvent (bumpFlags st p.team).events
      (GEvent.capture p.name p.code p.team)) }

theorem teamFlags_congr (st1 st2 : GameState) (hb : st1.blueTeam = st2.blueTeam)
    (hr : st1.redTeam = st2.redTeam) (t : Team) : teamFlags st1 t = teamFlags st2 t := by
  cases t <;> simp [teamFlags, hb, hr]

theorem getPlayer_id (st : GameState) (pid : String) (p : Player)
    (hp : getPlayer st pid = some p) : p ∈ st.players ∧ p.id = pid := by
  refine ⟨List.mem_of_find?_eq_some hp, ?_⟩
  have := List.find?_some hp
  simpa using this

theorem hasPlayer_of_get (st : GameState) (pid : String) (p : Player)
    (hp : getPlayer st pid = some p) : hasPlayer st pid = true := by
  obtain ⟨hm, hid⟩ := getPlayer_id st pid p hp
  exact List.any_eq_true.mpr ⟨p, hm, by simp [hid]⟩

/-- C2: for an active player p (nonempty id), CaptureFlag succeeds exactly
    when flagHolder is p's id; when p does not hold the flag it returns 400
    and leaves the state untouched; on success it clears the holder and
    increments exactly p's team's capture counter by exactly 1. -/
theorem spec_C2 (st : GameState) (pid : String) (p : Player)
    (hpid : pid ≠ "") (hp : getPlayer st pid = some p) :
    ((captureF st pid).1 = HStatus.ok ↔ st.flagHolder = some pid) ∧
    (st.flagHolder ≠ some pid → captureF st pid = (HStatus.badRequest, st)) ∧
    (st.flagHolder = some pid →
      (captureF st pid).2.flagHolder = none ∧
      teamFlags (captureF st pid).2 p.team = teamFlags st p.team + 1 ∧
      teamFlags (captureF st pid).2 (otherTeam p.team) =
        teamFlags st (otherTeam p.team)) := by
  have hne : (pid == "") = false := by simpa using hpid
  have hhas : hasPlayer st pid = true := hasPlayer_of_get st pid p hp
  have hfind : st.players.find? (fun q => q.id == pid) = some p := hp
  by_cases hfh : st.flagHolder = some pid
  · have hcap : captureF st pid = (HStatus.ok, captureSucc st p) := by
      simp [captureF, captureSucc, hne, hhas, hfind, hfh]
    rw [hcap]
    refine ⟨by simp [hfh], fun h => absurd hfh h, fun _ => ⟨rfl, ?_, ?_⟩⟩
    · exact (teamFlags_congr (captureSucc st p) (bumpFlags st p.team) rfl rfl
        p.team).trans (teamFlags_bumpFlags_self st p.team)
    · exact (teamFlags_congr (captureSucc st p) (bumpFlags st p.team) rfl rfl
        (otherTeam p.team)).trans (teamFlags_bumpFlags_other st p.team)
  · simp [captureF, hne, hhas, hfind, hfh]

def stC2 : GameState :=
  applyOps initState [.join (.num (.fin 7)) "ipA" "p1", .obtain "p1"]

def pC2 : Player :=
  { id := "p1", number := 4, code := 7, name := "Player 7", ip := "ipA"
  , team := .blue, kills := .fin 0, health := .fin 100 }

theorem spec_C2_w :
    ((captureF stC2 "p1").1 = HStatus.ok ↔ stC2.flagHolder = some "p1") ∧
    (stC2.flagHolder ≠ some "p1" → captureF stC2 "p1" = (HStatus.badRequest, stC2)) ∧
    (stC2.flagHolder = some "p1" →
      (captureF stC2 "p1").2.flagHolder = none ∧
      teamFlags (captureF stC2 "p1").2 pC2.team = teamFlags stC2 pC2.team + 1 ∧
      teamFlags (captureF stC2 "p1").2 (otherTeam pC2.team) =
        teamFlags stC2 (otherTeam pC2.team)) :=
  spec_C2 stC2 "p1" pC2 (by decide) (by decide)

theorem setPlayer_eq_append (ps : List Player) (p : Player)
    (h : ps.any (fun q => q.id == p.id) = false) : setPlayer ps p = ps ++ [p] := by
  simp [setPlayer, h]

/-- C5: join rejects with 400 exactly the codes that are not integers in
    [0,99] (validCode characterization included), rejects duplicate codes
    and duplicate source addresses with 409, leaves the state untouched on
    every failure, and on success appends exactly one player with kills 0
    and health 100. -/
theorem spec_C5 (st : GameState) (code : JSVal) (ip fresh : String) :
    (validCode code = true ↔
      ∃ n : ℕ, n ≤ 99 ∧ code = JSVal.num (.fin (n : ℚ)) ∧ codeNatOf code = n) ∧
    (validCode code = false → joinF st code ip fresh = (HStatus.badRequest, st)) ∧
    (validCode code = true →
      (codeUsed st (codeNatOf code) = true ∨ ipUsed st ip = true) →
      (joinF st code ip fresh).1 = HStatus.conflict ∧
      (joinF st code ip fresh).2 = st) ∧
    ((joinF st code ip fresh).1 ≠ HStatus.ok → (joinF st code ip fresh).2 = st) ∧
    (validCode code = true → codeUsed st (codeNatOf code) = false →
      ipUsed st ip = false → hasPlayer st fresh = false →
      (joinF st code ip fresh).1 = HStatus.ok ∧
      (joinF st code ip fresh).2.players =
        st.players ++ [mkPlayer st (codeNatOf code) ip fresh] ∧
      (mkPlayer st (codeNatOf code) ip fresh).kills = .fin 0 ∧
      (mkPlayer st (codeNatOf code) ip fresh).health = .fin 100 ∧
      (joinF st code ip fresh).2.players.length = st.players.length + 1) := by
  refine ⟨?_, ?_, ?_, ?_, ?_⟩
  · constructor
    · intro h
      match code with
      | .other => simp [validCode] at h
      | .num .nan => simp [validCode, jsIsInt] at h
      | .num (.inf s) => simp [validCode, jsIsInt] at h
      | .num (.fin q) =>
        simp only [validCode, jsLt, jsIsInt, Bool.and_eq_true, Bool.not_eq_true',
          decide_eq_false_iff_not, decide_eq_true_eq, not_lt] at h
        obtain ⟨⟨h0, h99⟩, hden⟩ := h
        have hq : (q.num : ℚ) = q := (Rat.den_eq_one_iff q).mp hden
        have hnum0 : 0 ≤ q.num := by
          rw [← Rat.num_nonneg] at h0
          exact h0
        have hnum99 : q.num ≤ 99 := by
          have : (q.num : ℚ) ≤ (99 : ℚ) := by rw [hq]; exact h99
          exact_mod_cast this
        refine ⟨q.num.toNat, ?_, ?_, rfl⟩
        · omega
        · have : ((q.num.toNat : ℤ) : ℚ) = q := by
            rw [Int.toNat_of_nonneg hnum0]; exact hq
          simp only [JSVal.num.injEq, JSNum.fin.injEq]
          exact_mod_cast this.symm
    · rintro ⟨n, hn, hcode, -⟩
      subst hcode
      simp only [validCode, jsLt, jsIsInt, Bool.and_eq_true, Bool.not_eq_true',
        decide_eq_false_iff_not, decide_eq_true_eq, not_lt]
      refine ⟨⟨by positivity, ?_⟩, by simp⟩
      exact_mod_cast hn
  · intro h
    simp [joinF, h]
  · intro hv hdup
    by_cases hc : codeUsed st (codeNatOf code) = true
    · simp [joinF, hv, hc]
    · have hi : ipUsed st ip = true := by
        rcases hdup with h | h
        · exact absurd h hc
        · exact h
      simp [joinF, hv, hc, hi]
  · by_cases hv : validCode code = true
    · by_cases hc : codeUsed st (codeNatOf code) = true
      · simp [joinF, hv, hc]
      · by_cases hi : ipUsed st ip = true
        · simp [joinF, hv, hc, hi]
        · simp [joinF, hv, hc, hi]
    · have hv2 : validCode code = false := by
        cases hval : validCode code
        · rfl
        · exact absurd hval hv
      simp [joinF, hv2]
  · intro hv hc hi hfresh
    have happ : setPlayer st.players (mkPlayer st (codeNatOf code) ip fresh) =
        st.players ++ [mkPlayer st (codeNatOf code) ip fresh] :=
      setPlayer_eq_append st.players _ hfresh
    simp [joinF, hv, hc, hi, happ]
    exact ⟨rfl, rfl⟩

theorem spec_C5_w :
    (joinF initState (.num (.fin 5)) "ipA" "w1").1 = HStatus.ok ∧
    (joinF initState (.num (.fin 5)) "ipA" "w1").2.players.length =
      initState.players.length + 1 ∧
    (mkPlayer initState (codeNatOf (.num (.fin 5))) "ipA" "w1").kills = .fin 0 ∧
    (mkPlayer initState (codeNatOf (.num (.fin 5))) "ipA" "w1").health = .fin 100 := by
  have h := (spec_C5 initState (.num (.fin 5)) "ipA" "w1").2.2.2.2
    (by decide) (by decide) (by decide) (by decide)
  exact ⟨h.1, h.2.2.2.2, h.2.2.1, h.2.2.2.1⟩

theorem find?_updatePlayer (ps : List Player) (x y : String) (f : Player → Player)
    (hf : ∀ p, (f p).id = p.id) :
    List.find? (fun p => p.id == x) (updatePlayer ps y f) =
      (List.find? (fun p => p.id == x) ps).map
        (fun p => if p.id == y then f p else p) := by
  rw [updatePlayer, List.find?_map]
  have hcomp : ((fun p => p.id == x) ∘ fun q => if q.id == y then f q else q) =
      (fun p : Player => p.id == x) := by
    funext q
    by_cases h : (q.id == y) = true
    · simp [Function.comp, h, hf q]
    · have h2 : (q.id == y) = false := by simpa using h
      simp [Function.comp, h2]
  rw [hcomp]

theorem killsBump (k : ℚ) : jsAdd (jsOrZero (.fin k)) (.fin 1) = .fin (k + 1) := by
  by_cases hk : k = 0
  · simp [jsOrZero, jsTruthy, hk, jsAdd, ratAdd_eq]
  · simp [jsOrZero, jsTruthy, hk, jsAdd, ratAdd_eq]

/-- The state after the attack handler's kill branch (health hit exactly 0):
    kill counter bump, conditional flag clear, respawn to 100, and the
    respawn/attack/kill events in source order. -/
def attackKillState (st : GameState) (atk tgt : Player) (dmg : JSNum) : GameState :=
  let newHealth := jsMax (.fin 0) (jsSub tgt.health dmg)
  let st1 := { st with players := (updatePlayer st.players tgt.id
    (fun p => { p with health := newHealth })) }
  let stk := { st1 with players := (updatePlayer st1.players atk.id
    (fun p => { p with kills := jsAdd (jsOrZero p.kills) (.fin 1) })) }
  let stf := { stk with flagHolder :=
    if stk.flagHolder = some tgt.id then none else stk.flagHolder }
  let str := { stf with players := (updatePlayer stf.players tgt.id
    (fun p => { p with health := .fin 100 })) }
  let st3 := { str with events := (logEvent
    (logEvent str.events (.respawn tgt.name tgt.code))
    (.attack atk.name atk.code tgt.name tgt.code dmg true)) }
  { st3 with events := (logEvent st3.events
    (.kill atk.name atk.code tgt.name tgt.code)) }

/-- The state after the attack handler when the clamped health is nonzero. -/
def attackNoKillState (st : GameState) (atk tgt : Player) (dmg : JSNum) : GameState :=
  let newHealth := jsMax (.fin 0) (jsSub tgt.health dmg)
  let st1 := { st with players := (updatePlayer st.players tgt.id
    (fun p => { p with health := newHealth })) }
  { st1 with events := (logEvent st1.events
    (.attack atk.name atk.code tgt.name tgt.code dmg false)) }

theorem attackApply_killed (st : GameState) (atk tgt : Player) (dmg : JSNum)
    (hdead : jsMax (.fin 0) (jsSub tgt.health dmg) = .fin 0) :
    attackApply st atk tgt dmg = (true, attackKillState st atk tgt dmg) := by
  simp [attackApply, attackKillState, hdead]

theorem attackApply_nokill (st : GameState) (atk tgt : Player) (dmg : JSNum)
    (hdead : ¬ jsMax (.fin 0) (jsSub tgt.health dmg) = .fin 0) :
    attackApply st atk tgt dmg = (false, attackNoKillState st atk tgt dmg) := by
  simp [attackApply, attackNoKillState, hdead]

/-- C4: a successful attack between distinct active players reports a kill
    exactly when the clamped health hits 0; in that case the attacker's kill
    counter goes from k to k+1 (never more), the target respawns at health
    100, and the flag holder is cleared when the target held it; when no
    kill occurs the kill counter is untouched; in every case the target is
    not left at health 0. -/
theorem spec_C4 (st : GameState) (aid tid : String) (damage : JSVal)
    (atk tgt : Player) (k : ℚ)
    (hane : aid ≠ "") (htne : tid ≠ "") (hne : aid ≠ tid)
    (ha : getPlayer st aid = some atk) (ht : getPlayer st tid = some tgt)
    (hk : atk.kills = .fin k) :
    (attackF st aid tid damage).1 = HStatus.ok ∧
    ((attackF st aid tid damage).2.1 = true ↔
      jsMax (.fin 0) (jsSub tgt.health (dmgOf damage)) = .fin 0) ∧
    (jsMax (.fin 0) (jsSub tgt.health (dmgOf damage)) = .fin 0 →
      playerKills (attackF st aid tid damage).2.2 aid = some (.fin (k + 1)) ∧
      playerHealth (attackF st aid tid damage).2.2 tid = some (.fin 100) ∧
      (st.flagHolder = some tid →
        (attackF st aid tid damage).2.2.flagHolder = none) ∧
      (st.flagHolder ≠ some tid →
        (attackF st aid tid damage).2.2.flagHolder = st.flagHolder)) ∧
    (¬ jsMax (.fin 0) (jsSub tgt.health (dmgOf damage)) = .fin 0 →
      playerKills (attackF st aid tid damage).2.2 aid = some (.fin k) ∧
      playerHealth (attackF st aid tid damage).2.2 tid =
        some (jsMax (.fin 0) (jsSub tgt.health (dmgOf damage)))) ∧
    playerHealth (attackF st aid tid damage).2.2 tid ≠ some (.fin 0) := by
  have hbA : (aid == "") = false := by simpa using hane
  have hbT : (tid == "") = false := by simpa using htne
  have hAT : (aid == tid) = false := by simpa using hne
  have hhA : hasPlayer st aid = true := hasPlayer_of_get st aid atk ha
  have hhT : hasPlayer st tid = true := hasPlayer_of_get st tid tgt ht
  have hfa : List.find? (fun p => p.id == aid) st.players = some atk := ha
  have hft : List.find? (fun p => p.id == tid) st.players = some tgt := ht
  have hatkid : atk.id = aid := (getPlayer_id st aid atk ha).2
  have htgtid : tgt.id = tid := (getPlayer_id st tid tgt ht).2
  have hAtkTid : (atk.id == tid) = false := by
    rw [hatkid]
    exact hAT
  have hAtkAid : (atk.id == aid) = true := by simp [hatkid]
  have hTgtAid : (tgt.id == aid) = false := by
    rw [htgtid]
    simpa using fun h => hne h.symm
  have hTgtTid : (tgt.id == tid) = true := by simp [htgtid]
  have hattack : attackF st aid tid damage =
      (HStatus.ok, attackApply st atk tgt (dmgOf damage)) := by
    simp [attackF, hbA, hbT, hAT, hhA, hhT, hfa, hft]
  rw [hattack]
  by_cases hdead : jsMax (.fin 0) (jsSub tgt.health (dmgOf damage)) = .fin 0
  · rw [attackApply_killed st atk tgt (dmgOf damage) hdead]
    have hkills : playerKills (attackKillState st atk tgt (dmgOf damage)) aid =
        some (.fin (k + 1)) := by
      simp only [playerKills, getPlayer, attackKillState]
      simp [find?_updatePlayer, hfa, hatkid, htgtid, hne, hk, killsBump]
    have hhealth : playerHealth (attackKillState st atk tgt (dmgOf damage)) tid =
        some (.fin 100) := by
      simp only [playerHealth, getPlayer, attackKillState]
      simp [find?_updatePlayer, hft, hatkid, htgtid, Ne.symm hne]
    refine ⟨rfl, by simp [hdead], fun _ => ⟨hkills, hhealth, ?_, ?_⟩, fun h => absurd hdead h, ?_⟩
    · intro hfh
      simp [attackKillState, htgtid, hfh]
    · intro hfh
      simp [attackKillState, htgtid, hfh]
    · rw [hhealth]
      simp
  · rw [attackApply_nokill st atk tgt (dmgOf damage) hdead]
    have hkills : playerKills (attackNoKillState st atk tgt (dmgOf damage)) aid =
        some (.fin k) := by
      simp only [playerKills, getPlayer, attackNoKillState]
      simp [find?_updatePlayer, hfa, hatkid, htgtid, hne, hk]
    have hhealth : playerHealth (attackNoKillState st atk tgt (dmgOf damage)) tid =
        some (jsMax (.fin 0) (jsSub tgt.health (dmgOf damage))) := by
      simp only [playerHealth, getPlayer, attackNoKillState]
      simp [find?_updatePlayer, hft, hatkid, htgtid]
    refine ⟨rfl, by simp [hdead], fun h => absurd h hdead, fun _ => ⟨hkills, hhealth⟩, ?_⟩
    rw [hhealth]
    simp only [ne_eq, Option.some.injEq]
    exact fun h => hdead h

def stC4 : GameState :=
  applyOps initState [.join (.num (.fin 1)) "a" "pa", .join (.num (.fin 2)) "b" "pb"]

def atkC4 : Player :=
  { id := "pa", number := 4, code := 1, name := "Player 1", ip := "a"
  , team := .blue, kills := .fin 0, health := .fin 100 }

def tgtC4 : Player :=
  { id := "pb", number := 5, code := 2, name := "Player 2", ip := "b"
  , team := .red, kills := .fin 0, health := .fin 100 }

theorem spec_C4_w :
    jsMax (.fin 0) (jsSub tgtC4.health (dmgOf (.num (.fin 100)))) = .fin 0 ∧
    playerKills (attackF stC4 "pa" "pb" (.num (.fin 100))).2.2 "pa" =
      some (.fin (0 + 1)) ∧
    playerHealth (attackF stC4 "pa" "pb" (.num (.fin 100))).2.2 "pb" =
      some (.fin 100) := by
  have h := spec_C4 stC4 "pa" "pb" (.num (.fin 100)) atkC4 tgtC4 0
    (by decide) (by decide) (by decide) (by decide) (by decide) (by decide)
  exact ⟨by decide, (h.2.2.1 (by decide)).1, (h.2.2.1 (by decide)).2.1⟩

/-- All active players have a finite health in [0,100]. -/
def healthsOK (st : GameState) : Bool :=
  st.players.all (fun p => goodHealth p.health)

/-- An Attack, Heal or UpdateStats request whose health-affecting numeric
    argument is not NaN. -/
def healthSafeOp : Op → Bool
  | .attack _ _ (.num .nan) => false
  | .attack _ _ _ => true
  | .heal _ _ (.num .nan) => false
  | .heal _ _ _ => true
  | .update _ _ (.num .nan) => false
  | .update _ _ _ => true
  | _ => false

theorem goodHealth_clamp (x : JSNum) (hx : x ≠ .nan) :
    goodHealth (jsMax (.fin 0) (jsMin (.fin 100) x)) = true := by
  match x with
  | .nan => exact absurd rfl hx
  | .inf true =>
    simp only [jsMin, jsMax, goodHealth, decide_eq_true_eq]
    norm_num
  | .inf false =>
    simp only [jsMin, jsMax, goodHealth, decide_eq_true_eq]
    norm_num
  | .fin q =>
    simp only [jsMin, jsMax, goodHealth, decide_eq_true_eq]
    refine ⟨le_max_left 0 _, ?_⟩
    exact max_le (by norm_num) (le_trans (min_le_left 100 q) (le_refl 100))

theorem dmgOf_not_nan (damage : JSVal) (hd : damage ≠ .num .nan) :
    (∃ d : ℚ, dmgOf damage = .fin d ∧ 0 ≤ d) ∨ dmgOf damage = .inf true := by
  match damage with
  | .other => exact .inl ⟨10, rfl, by norm_num⟩
  | .num .nan => exact absurd rfl hd
  | .num (.inf true) => exact .inr rfl
  | .num (.inf false) => exact .inl ⟨0, rfl, le_refl 0⟩
  | .num (.fin d) => exact .inl ⟨max 0 d, rfl, le_max_left 0 d⟩

theorem amtOf_not_nan (amount : JSVal) (ha : amount ≠ .num .nan) :
    amtOf amount ≠ .nan := by
  match amount with
  | .other => simp [amtOf]
  | .num .nan => exact absurd rfl ha
  | .num (.inf true) => simp [amtOf, jsMax]
  | .num (.inf false) => simp [amtOf, jsMax]
  | .num (.fin a) => simp [amtOf, jsMax]

theorem jsAdd_fin_not_nan (h : ℚ) (b : JSNum) (hb : b ≠ .nan) :
    jsAdd (.fin h) b ≠ .nan := by
  match b with
  | .nan => exact absurd rfl hb
  | .inf s => simp [jsAdd]
  | .fin y => simp [jsAdd]

theorem goodHealth_attacked (hOld : JSNum) (damage : JSVal)
    (hgood : goodHealth hOld = true) (hd : damage ≠ .num .nan) :
    goodHealth (jsMax (.fin 0) (jsSub hOld (dmgOf damage))) = true := by
  match hOld with
  | .nan => simp [goodHealth] at hgood
  | .inf s => simp [goodHealth] at hgood
  | .fin h =>
    simp only [goodHealth, decide_eq_true_eq] at hgood
    rcases dmgOf_not_nan damage hd with ⟨d, hdmg, hd0⟩ | hdmg
    · rw [hdmg]
      simp only [jsSub, jsNeg, jsAdd, ratAdd_eq, jsMax, goodHealth,
        decide_eq_true_eq]
      refine ⟨le_max_left 0 _, max_le (by norm_num) ?_⟩
      have : h + -d ≤ h := by linarith
      linarith [hgood.2]
    · rw [hdmg]
      simp only [jsSub, jsNeg, Bool.not_true, jsAdd, jsMax, goodHealth,
        decide_eq_true_eq]
      norm_num

theorem all_good_updatePlayer (ps : List Player) (id : String) (f : Player → Player)
    (hall : ps.all (fun p => goodHealth p.health) = true)
    (hf : ∀ p, goodHealth p.health = true → goodHealth ((f p).health) = true) :
    (updatePlayer ps id f).all (fun p => goodHealth p.health) = true := by
  rw [List.all_eq_true] at hall ⊢
  intro q hq
  obtain ⟨p, hp, rfl⟩ := List.mem_map.mp hq
  by_cases h : (p.id == id) = true
  · simp only [h, if_true]
    exact hf p (hall p hp)
  · have h2 : (p.id == id) = false := by simpa using h
    simp only [h2, Bool.false_eq_true, if_false]
    exact hall p hp

theorem healthsOK_step (st : GameState) (op : Op) (hop : healthSafeOp op = true)
    (hst : healthsOK st = true) : healthsOK (step st op) = true := by
  cases op with
  | join c ip f => simp [healthSafeOp] at hop
  | remove id => simp [healthSafeOp] at hop
  | leave pid => simp [healthSafeOp] at hop
  | obtain pid => simp [healthSafeOp] at hop
  | capture pid => simp [healthSafeOp] at hop
  | changeTeam pid t => simp [healthSafeOp] at hop
  | restart => simp [healthSafeOp] at hop
  | update pid kv hv =>
    have hhv : hv ≠ JSVal.num .nan := by
      intro h
      subst h
      simp [healthSafeOp] at hop
    simp only [step, updateF]
    split
    · exact hst
    · simp only [healthsOK]
      apply all_good_updatePlayer _ _ _ hst
      intro p hp
      cases kv with
      | num k =>
        cases hv with
        | num h => exact goodHealth_clamp h (fun he => hhv (by rw [he]))
        | other => exact hp
      | other =>
        cases hv with
        | num h => exact goodHealth_clamp h (fun he => hhv (by rw [he]))
        | other => exact hp
  | heal hid tid amount =>
    have ham : amount ≠ JSVal.num .nan := by
      intro h
      subst h
      simp [healthSafeOp] at hop
    simp only [step, healF]
    split
    · exact hst
    split
    · exact hst
    split
    · exact hst
    · simp only [healthsOK]
      apply all_good_updatePlayer _ _ _ hst
      intro p hp
      cases hph : p.health with
      | nan => rw [hph] at hp; simp [goodHealth] at hp
      | inf s => rw [hph] at hp; simp [goodHealth] at hp
      | fin h =>
        have hb : jsAdd (.fin h) (amtOf amount) ≠ .nan :=
          jsAdd_fin_not_nan h _ (amtOf_not_nan amount ham)
        exact goodHealth_clamp _ hb
  | attack aid tid damage =>
    have hdm : damage ≠ JSVal.num .nan := by
      intro h
      subst h
      simp [healthSafeOp] at hop
    simp only [step, attackF]
    split
    · exact hst
    split
    · exact hst
    split
    · exact hst
    · split
      · rename_i atk tgt hfa hft
        have htgt_mem : tgt ∈ st.players := List.mem_of_find?_eq_some hft
        have htgt_good : goodHealth tgt.health = true :=
          (List.all_eq_true.mp hst) tgt htgt_mem
        by_cases hdead : jsMax (.fin 0) (jsSub tgt.health (dmgOf damage)) = .fin 0
        · rw [attackApply_killed st atk tgt _ hdead]
          simp only [healthsOK, attackKillState]
          refine all_good_updatePlayer _ _ _ ?_ ?_
          · refine all_good_updatePlayer _ _ _ ?_ ?_
            · refine all_good_updatePlayer _ _ _ hst ?_
              intro p hp
              exact goodHealth_attacked tgt.health damage htgt_good hdm
            · intro p hp
              exact hp
          · intro p hp
            show goodHealth (JSNum.fin 100) = true
            decide
        · rw [attackApply_nokill st atk tgt _ hdead]
          simp only [healthsOK, attackNoKillState]
          refine all_good_updatePlayer _ _ _ hst ?_
          intro p hp
          exact goodHealth_attacked tgt.health damage htgt_good hdm
      · exact hst

/-- C3 amended: from any state whose active players all have finite health
    in [0,100], any sequence of Attack, Heal and UpdateStats operations
    whose health-affecting numeric argument is not NaN keeps every active
    player's health a finite value in [0,100] after each operation; with a
    NaN argument the invariant fails (see the counterexample). -/
theorem spec_C3_fix (st : GameState) (ops : List Op)
    (hst : healthsOK st = true) (hops : ops.all healthSafeOp = true) :
    healthsOK (applyOps st ops) = true := by
  induction ops generalizing st with
  | nil => exact hst
  | cons o os ih =>
    rw [List.all_cons, Bool.and_eq_true] at hops
    exact ih (step st o) (healthsOK_step st o hops.1 hst) hops.2

def c3wSt : GameState :=
  applyOps initState [.join (.num (.fin 7)) "ipA" "p1", .join (.num (.fin 8)) "ipB" "p2"]

def c3wOps : List Op :=
  [.heal "" "p1" (.num (.fin 50)), .attack "p1" "p2" (.num (.fin 30)),
   .update "p1" .other (.num (.inf false))]

theorem spec_C3_fix_w : healthsOK (applyOps c3wSt c3wOps) = true :=
  spec_C3_fix c3wSt c3wOps (by decide) (by decide)

/-- Signed blue-minus-red active-player count. -/
def teamDiff (st : GameState) : ℤ :=
  (countTeam st .blue : ℤ) - (countTeam st .red : ℤ)

def isJoin : Op → Bool
  | .join _ _ _ => true
  | _ => false

/-- The ids passed to the join operations of a request sequence. -/
def freshes (ops : List Op) : List String :=
  ops.filterMap (fun op => match op with | .join _ _ f => some f | _ => none)

theorem countTeam_append (st st2 : GameState) (p : Player) (t : Team)
    (h : st2.players = st.players ++ [p]) :
    countTeam st2 t = countTeam st t + (if p.team == t then 1 else 0) := by
  simp only [countTeam, h, List.filter_append, List.length_append]
  by_cases hp : (p.team == t) = true
  · simp [hp]
  · have hp2 : (p.team == t) = false := by simpa using hp
    simp [hp2]

theorem teamDiff_join_step (st : GameState) (c : JSVal) (ip f : String)
    (hd : (teamDiff st).natAbs ≤ 1) (hf : hasPlayer st f = false) :
    (teamDiff (step st (Op.join c ip f))).natAbs ≤ 1 := by
  simp only [step, joinF]
  split
  · exact hd
  split
  · exact hd
  split
  · exact hd
  · have happ : setPlayer st.players (mkPlayer st (codeNatOf c) ip f) =
        st.players ++ [mkPlayer st (codeNatOf c) ip f] :=
      setPlayer_eq_append st.players _ hf
    have hteam : (mkPlayer st (codeNatOf c) ip f).team = assignTeam st := rfl
    simp only [teamDiff, countTeam] at hd ⊢
    rw [happ]
    by_cases hle : countTeam st Team.blue ≤ countTeam st Team.red
    · have hassign : assignTeam st = Team.blue := by simp [assignTeam, hle]
      rw [hassign] at hteam
      simp only [countTeam] at hle
      simp [List.filter_append, hteam]
      omega
    · have hassign : assignTeam st = Team.red := by simp [assignTeam, hle]
      rw [hassign] at hteam
      simp only [countTeam] at hle
      simp [List.filter_append, hteam]
      omega

theorem hasPlayer_join_false (st : GameState) (c : JSVal) (ip f g : String)
    (hg : hasPlayer st g = false) (hgf : g ≠ f) :
    hasPlayer (step st (Op.join c ip f)) g = false := by
  have hfg : ¬ (f = g) := fun h => hgf h.symm
  simp only [step, joinF]
  split
  · exact hg
  split
  · exact hg
  split
  · exact hg
  · simp only [hasPlayer] at hg ⊢
    rw [List.any_eq_false] at hg ⊢
    intro q hq
    rw [setPlayer] at hq
    split at hq
    · obtain ⟨r, hr, rfl⟩ := List.mem_map.mp hq
      by_cases hrf : (r.id == (mkPlayer st (codeNatOf c) ip f).id) = true
      · simp only [hrf, if_true]
        intro hcon
        exact hfg (by simpa [mkPlayer] using hcon)
      · have hrf2 : (r.id == (mkPlayer st (codeNatOf c) ip f).id) = false := by
          simpa using hrf
        simp only [hrf2, Bool.false_eq_true, if_false]
        exact hg r hr
    · rcases List.mem_append.mp hq with h | h
      · exact hg q h
      · have hqe : q = mkPlayer st (codeNatOf c) ip f := by simpa using h
        subst hqe
        intro hcon
        exact hfg (by simpa [mkPlayer] using hcon)

theorem teamDiff_joins (ops : List Op) (st : GameState)
    (hd : (teamDiff st).natAbs ≤ 1)
    (hops : ops.all isJoin = true)
    (hnew : ∀ g ∈ freshes ops, hasPlayer st g = false)
    (hnd : (freshes ops).Nodup) :
    (teamDiff (applyOps st ops)).natAbs ≤ 1 := by
  induction ops generalizing st with
  | nil => exact hd
  | cons o os ih =>
    rw [List.all_cons, Bool.and_eq_true] at hops
    cases o with
    | join c ip f =>
      have hfr : freshes (Op.join c ip f :: os) = f :: freshes os := rfl
      rw [hfr] at hnew hnd
      have hf : hasPlayer st f = false := hnew f (by simp)
      have hstep := teamDiff_join_step st c ip f hd hf
      refine ih (step st (.join c ip f)) hstep hops.2 ?_ (List.nodup_cons.mp hnd).2
      intro g hg
      refine hasPlayer_join_false st c ip f g (hnew g (List.mem_cons_of_mem _ hg)) ?_
      intro h
      subst h
      exact (List.nodup_cons.mp hnd).1 hg
    | update a b d => exact absurd hops.1 (by simp [isJoin])
    | remove a => exact absurd hops.1 (by simp [isJoin])
    | leave a => exact absurd hops.1 (by simp [isJoin])
    | obtain a => exact absurd hops.1 (by simp [isJoin])
    | capture a => exact absurd hops.1 (by simp [isJoin])
    | attack a b d => exact absurd hops.1 (by simp [isJoin])
    | heal a b d => exact absurd hops.1 (by simp [isJoin])
    | changeTeam a b => exact absurd hops.1 (by simp [isJoin])
    | restart => exact absurd hops.1 (by simp [isJoin])

/-- C6: assignTeam picks the team with the smaller active-player count and
    blue on ties, and any sequence of joins from the empty initial state
    (with distinct generated ids, which the id-allocation contract
    guarantees) keeps the blue/red count difference within 1. -/
theorem spec_C6 (st : GameState) (ops : List Op) :
    (countTeam st Team.blue < countTeam st Team.red → assignTeam st = Team.blue) ∧
    (countTeam st Team.red < countTeam st Team.blue → assignTeam st = Team.red) ∧
    (countTeam st Team.blue = countTeam st Team.red → assignTeam st = Team.blue) ∧
    (ops.all isJoin = true → (freshes ops).Nodup →
      (teamDiff (applyOps initState ops)).natAbs ≤ 1) := by
  refine ⟨?_, ?_, ?_, ?_⟩
  · intro h
    simp [assignTeam, le_of_lt h]
  · intro h
    simp [assignTeam, not_le.mpr h]
  · intro h
    simp [assignTeam, le_of_eq h]
  · intro hops hnd
    refine teamDiff_joins ops initState (by decide) hops ?_ hnd
    intro g hg
    rfl

theorem spec_C6_w :
    (teamDiff (applyOps initState [Op.join (.num (.fin 1)) "a" "pa",
      Op.join (.num (.fin 2)) "b" "pb",
      Op.join (.num (.fin 3)) "c" "pc"])).natAbs ≤ 1 :=
  (spec_C6 initState _).2.2.2 (by decide) (by decide)

theorem logEvent_le (es : List GEvent) (e : GEvent) (h : es.length ≤ 2000) :
    (logEvent es e).length ≤ 2000 := by
  simp only [logEvent]
  split
  · simp only [List.length_drop, List.length_append, List.length_cons,
      List.length_nil]
    omega
  · rename_i h2
    simp only [List.length_append, List.length_cons, List.length_nil] at h2 ⊢
    omega

theorem bumpFlags_events (st : GameState) (t : Team) :
    (bumpFlags st t).events = st.events := by
  cases t <;> rfl

theorem step_events_le (st : GameState) (op : Op)
    (h : st.events.length ≤ 2000) : (step st op).events.length ≤ 2000 := by
  cases op with
  | join c ip f =>
    simp only [step, joinF]
    split
    · exact h
    split
    · exact h
    split
    · exact h
    · exact logEvent_le _ _ h
  | update pid k hv =>
    simp only [step, updateF]
    split
    · exact h
    · exact h
  | remove id =>
    simp only [step, removeF]
    split
    · exact h
    · exact logEvent_le _ _ h
  | leave pid =>
    simp only [step, leaveF]
    split
    · exact h
    · exact h
  | obtain pid =>
    simp only [step, obtainF]
    split
    · exact h
    split
    · exact h
    · exact logEvent_le _ _ h
  | capture pid =>
    simp only [step, captureF]
    split
    · exact h
    split
    · exact h
    split
    · exact h
    · show (logEvent (bumpFlags st _).events _).length ≤ 2000
      rw [bumpFlags_events]
      exact logEvent_le _ _ h
  | attack aid tid damage =>
    simp only [step, attackF]
    split
    · exact h
    split
    · exact h
    split
    · exact h
    · split
      · rename_i atk tgt hfa hft
        by_cases hdead : jsMax (.fin 0) (jsSub tgt.health (dmgOf damage)) = .fin 0
        · rw [attackApply_killed st atk tgt _ hdead]
          show (logEvent (logEvent (logEvent st.events _) _) _).length ≤ 2000
          exact logEvent_le _ _ (logEvent_le _ _ (logEvent_le _ _ h))
        · rw [attackApply_nokill st atk tgt _ hdead]
          exact logEvent_le _ _ h
      · exact h
  | heal hid tid amount =>
    simp only [step, healF]
    split
    · exact h
    split
    · exact h
    split
    · exact h
    · exact logEvent_le _ _ h
  | changeTeam pid t =>
    simp only [step, changeTeamF]
    split
    · exact h
    split
    · exact h
    split
    · exact h
    · exact logEvent_le _ _ h
  | restart =>
    show (logEvent ([] : List GEvent) GEvent.restarted).length ≤ 2000
    exact logEvent_le _ _ (by simp)

/-- C7: starting from the initial state, the event log never exceeds 2000
    entries after any request sequence; when an append would exceed the
    bound, exactly the single oldest entry is evicted and the retained
    entries keep their order; below the bound an append just extends the
    log; GET /api/events returns the stored log (oldest first). -/
theorem spec_C7 (ops : List Op) (es : List GEvent) (e : GEvent) :
    (applyOps initState ops).events.length ≤ 2000 ∧
    (es.length = 2000 → logEvent es e = es.drop 1 ++ [e]) ∧
    (es.length < 2000 → logEvent es e = es ++ [e]) ∧
    eventsF (applyOps initState ops) = (applyOps initState ops).events := by
  refine ⟨?_, ?_, ?_, rfl⟩
  · have : ∀ sts : GameState, sts.events.length ≤ 2000 →
        (applyOps sts ops).events.length ≤ 2000 := by
      induction ops with
      | nil => exact fun sts hs => hs
      | cons o os ih => exact fun sts hs => ih (step sts o) (step_events_le sts o hs)
    exact this initState (by decide)
  · intro h2000
    have hgt : (es ++ [e]).length > 2000 := by
      simp only [List.length_append, List.length_cons, List.length_nil, h2000]
      omega
    simp only [logEvent]
    rw [if_pos hgt]
    exact List.drop_append_of_le_length (by omega)
  · intro hlt
    have hle : ¬ (es ++ [e]).length > 2000 := by
      simp only [List.length_append, List.length_cons, List.length_nil]
      omega
    simp only [logEvent]
    rw [if_neg hle]

theorem spec_C7_w :
    (applyOps initState []).events.length ≤ 2000 ∧
    logEvent (List.replicate 2000 GEvent.restarted) GEvent.restarted =
      (List.replicate 2000 GEvent.restarted).drop 1 ++ [GEvent.restarted] := by
  have h := spec_C7 [] (List.replicate 2000 GEvent.restarted) GEvent.restarted
  exact ⟨h.1, h.2.1 (by rw [List.length_replicate])⟩

theorem bumpFlags_next (st : GameState) (t : Team) :
    (bumpFlags st t).nextPlayerNumber = st.nextPlayerNumber := by
  cases t <;> rfl

theorem counter_mono (st : GameState) (op : Op) (hop : ¬ op = Op.restart) :
    st.nextPlayerNumber ≤ (step st op).nextPlayerNumber := by
  cases op with
  | restart => exact absurd rfl hop
  | join c ip f =>
    simp only [step, joinF]
    split
    · exact le_refl _
    split
    · exact le_refl _
    split
    · exact le_refl _
    · exact Nat.le_succ _
  | update pid k hv =>
    simp only [step, updateF]
    split <;> exact le_refl _
  | remove id =>
    simp only [step, removeF]
    split <;> exact le_refl _
  | leave pid =>
    simp only [step, leaveF]
    split <;> exact le_refl _
  | obtain pid =>
    simp only [step, obtainF]
    split
    · exact le_refl _
    split <;> exact le_refl _
  | capture pid =>
    simp only [step, captureF]
    split
    · exact le_refl _
    split
    · exact le_refl _
    split
    · exact le_refl _
    · show st.nextPlayerNumber ≤ (bumpFlags st _).nextPlayerNumber
      rw [bumpFlags_next]
  | attack aid tid damage =>
    simp only [step, attackF]
    split
    · exact le_refl _
    split
    · exact le_refl _
    split
    · exact le_refl _
    · split
      · rename_i atk tgt hfa hft
        by_cases hdead : jsMax (.fin 0) (jsSub tgt.health (dmgOf damage)) = .fin 0
        · rw [attackApply_killed st atk tgt _ hdead]
          exact le_refl _
        · rw [attackApply_nokill st atk tgt _ hdead]
          exact le_refl _
      · exact le_refl _
  | heal hid tid amount =>
    simp only [step, healF]
    split
    · exact le_refl _
    split
    · exact le_refl _
    split <;> exact le_refl _
  | changeTeam pid t =>
    simp only [step, changeTeamF]
    split
    · exact le_refl _
    split
    · exact le_refl _
    split <;> exact le_refl _

theorem counter_mono_ops (st : GameState) (ops : List Op)
    (hops : ∀ op ∈ ops, ¬ op = Op.restart) :
    st.nextPlayerNumber ≤ (applyOps st ops).nextPlayerNumber := by
  induction ops generalizing st with
  | nil => exact le_refl _
  | cons o os ih =>
    refine le_trans (counter_mono st o (hops o (by simp))) (ih (step st o) ?_)
    exact fun op hop => hops op (List.mem_cons_of_mem _ hop)

theorem find?_setPlayer_self (ps : List Player) (p : Player) :
    List.find? (fun q => q.id == p.id) (setPlayer ps p) = some p := by
  rw [setPlayer]
  split
  · rename_i hany
    rw [List.find?_map]
    have hcomp : ((fun q : Player => q.id == p.id) ∘
        fun q => if q.id == p.id then p else q) =
        (fun q : Player => q.id == p.id) := by
      funext q
      by_cases h : (q.id == p.id) = true
      · simp [Function.comp, h]
      · have h2 : (q.id == p.id) = false := by simpa using h
        simp [Function.comp, h2]
    rw [hcomp]
    obtain ⟨a, hmem, hpa⟩ := List.any_eq_true.mp hany
    cases hfind : List.find? (fun q => q.id == p.id) ps with
    | none => exact absurd hpa (List.find?_eq_none.mp hfind a hmem)
    | some b =>
      have hb : (b.id == p.id) = true := by simpa using List.find?_some hfind
      simp [hb]
      intro hcon
      exact absurd (by simpa using hb) hcon
  · rename_i hany
    rw [List.find?_append]
    have hnone : List.find? (fun q => q.id == p.id) ps = none := by
      rw [List.find?_eq_none]
      intro x hx hcon
      have hxe : x.id = p.id := by simpa using hcon
      have hall : ∀ y ∈ ps, ¬ y.id = p.id := by simpa using hany
      exact hall x hx hxe
    rw [hnone]
    simp

theorem join_success_number (st : GameState) (c : JSVal) (ip f : String)
    (h : (joinF st c ip f).1 = HStatus.ok) :
    playerNumber (joinF st c ip f).2 f = some st.nextPlayerNumber ∧
    (joinF st c ip f).2.nextPlayerNumber = st.nextPlayerNumber + 1 := by
  by_cases hv : validCode c = true
  · by_cases hc : codeUsed st (codeNatOf c) = true
    · simp [joinF, hv, hc] at h
    · by_cases hi : ipUsed st ip = true
      · simp [joinF, hv, hc, hi] at h
      · have hres : (joinF st c ip f).2.players =
            setPlayer st.players (mkPlayer st (codeNatOf c) ip f) := by
          simp [joinF, hv, hc, hi]
        constructor
        · simp only [playerNumber, getPlayer, hres]
          rw [show (fun q : Player => q.id == f) =
            (fun q : Player => q.id == (mkPlayer st (codeNatOf c) ip f).id) from rfl]
          rw [find?_setPlayer_self st.players (mkPlayer st (codeNatOf c) ip f)]
          rfl
        · simp [joinF, hv, hc, hi]
  · have hv2 : validCode c = false := by
      cases hval : validCode c
      · rfl
      · exact absurd hval hv
    simp [joinF, hv2] at h

/-- C9 amended: the display-number counter starts at 4, and between any two
    successful joins with no Restart in between, the later joiner's number
    is strictly greater (Restart resets the counter to 4, which refutes the
    original process-lifetime claim — see the counterexample). -/
theorem spec_C9_fix (st : GameState) (mid : List Op) (c1 c2 : JSVal)
    (ip1 ip2 f1 f2 : String) (n1 n2 : Nat)
    (h1 : (joinF st c1 ip1 f1).1 = HStatus.ok)
    (hmid : ∀ op ∈ mid, ¬ op = Op.restart)
    (h2 : (joinF (applyOps (joinF st c1 ip1 f1).2 mid) c2 ip2 f2).1 = HStatus.ok)
    (hn1 : playerNumber (joinF st c1 ip1 f1).2 f1 = some n1)
    (hn2 : playerNumber
      (joinF (applyOps (joinF st c1 ip1 f1).2 mid) c2 ip2 f2).2 f2 = some n2) :
    initState.nextPlayerNumber = 4 ∧ n1 < n2 := by
  obtain ⟨hf1, hx1⟩ := join_success_number st c1 ip1 f1 h1
  obtain ⟨hf2, -⟩ :=
    join_success_number (applyOps (joinF st c1 ip1 f1).2 mid) c2 ip2 f2 h2
  rw [hf1] at hn1
  rw [hf2] at hn2
  have e1 : n1 = st.nextPlayerNumber := (Option.some.inj hn1).symm
  have e2 : n2 = (applyOps (joinF st c1 ip1 f1).2 mid).nextPlayerNumber :=
    (Option.some.inj hn2).symm
  have hmono := counter_mono_ops (joinF st c1 ip1 f1).2 mid hmid
  rw [hx1] at hmono
  refine ⟨rfl, ?_⟩
  omega

theorem spec_C9_fix_w : initState.nextPlayerNumber = 4 ∧ (4 : Nat) < 5 :=
  spec_C9_fix initState [] (.num (.fin 1)) (.num (.fin 2)) "a" "b" "pa" "pb" 4 5
    (by decide) (by simp) (by decide) (by decide) (by decide)

def isCaptureOp : Op → Bool
  | .capture _ => true
  | _ => false

theorem bumpFlags_names (st : GameState) (t : Team) :
    (bumpFlags st t).blueTeam.name = st.blueTeam.name ∧
    (bumpFlags st t).blueTeam.color = st.blueTeam.color ∧
    (bumpFlags st t).redTeam.name = st.redTeam.name ∧
    (bumpFlags st t).redTeam.color = st.redTeam.color := by
  cases t <;> exact ⟨rfl, rfl, rfl, rfl⟩

theorem step_teams_frame (st : GameState) (op : Op)
    (hcap : isCaptureOp op = false) (hres : ¬ op = Op.restart) :
    (step st op).blueTeam = st.blueTeam ∧ (step st op).redTeam = st.redTeam := by
  cases op with
  | capture q => simp [isCaptureOp] at hcap
  | restart => exact absurd rfl hres
  | join c ip f =>
    simp only [step, joinF]
    split
    · exact ⟨rfl, rfl⟩
    split
    · exact ⟨rfl, rfl⟩
    split
    · exact ⟨rfl, rfl⟩
    · exact ⟨rfl, rfl⟩
  | update pid k hv =>
    simp only [step, updateF]
    split <;> exact ⟨rfl, rfl⟩
  | remove id =>
    simp only [step, removeF]
    split <;> exact ⟨rfl, rfl⟩
  | leave pid =>
    simp only [step, leaveF]
    split <;> exact ⟨rfl, rfl⟩
  | obtain pid =>
    simp only [step, obtainF]
    split
    · exact ⟨rfl, rfl⟩
    split <;> exact ⟨rfl, rfl⟩
  | attack aid tid damage =>
    simp only [step, attackF]
    split
    · exact ⟨rfl, rfl⟩
    split
    · exact ⟨rfl, rfl⟩
    split
    · exact ⟨rfl, rfl⟩
    · split
      · rename_i atk tgt hfa hft
        by_cases hdead : jsMax (.fin 0) (jsSub tgt.health (dmgOf damage)) = .fin 0
        · rw [attackApply_killed st atk tgt _ hdead]
          exact ⟨rfl, rfl⟩
        · rw [attackApply_nokill st atk tgt _ hdead]
          exact ⟨rfl, rfl⟩
      · exact ⟨rfl, rfl⟩
  | heal hid tid amount =>
    simp only [step, healF]
    split
    · exact ⟨rfl, rfl⟩
    split
    · exact ⟨rfl, rfl⟩
    split <;> exact ⟨rfl, rfl⟩
  | changeTeam pid t =>
    simp only [step, changeTeamF]
    split
    · exact ⟨rfl, rfl⟩
    split
    · exact ⟨rfl, rfl⟩
    split <;> exact ⟨rfl, rfl⟩

/-- C10 amended: every operation leaves the two teams' names and colors
    unchanged, and the flagsCaptured counters are changed only by a
    successful CaptureFlag (failed captures change nothing) or by Restart,
    which resets them to 0 — the original claim that no operation other
    than capture mutates them is refuted by Restart (see counterexample). -/
theorem spec_C10_fix (st : GameState) (op : Op) (pid : String) :
    ((step st op).blueTeam.name = st.blueTeam.name ∧
     (step st op).blueTeam.color = st.blueTeam.color ∧
     (step st op).redTeam.name = st.redTeam.name ∧
     (step st op).redTeam.color = st.redTeam.color) ∧
    (isCaptureOp op = false → ¬ op = Op.restart →
      (step st op).blueTeam.flagsCaptured = st.blueTeam.flagsCaptured ∧
      (step st op).redTeam.flagsCaptured = st.redTeam.flagsCaptured) ∧
    ((captureF st pid).1 ≠ HStatus.ok → (captureF st pid).2 = st) ∧
    ((step st Op.restart).blueTeam.flagsCaptured = 0 ∧
     (step st Op.restart).redTeam.flagsCaptured = 0) := by
  refine ⟨?_, ?_, ?_, rfl, rfl⟩
  · cases op with
    | capture q =>
      by_cases hb : (q == "" || !(hasPlayer st q)) = true
      · simp [step, captureF, hb]
      · cases hfind : List.find? (fun p => p.id == q) st.players with
        | none => simp [step, captureF, hb, hfind]
        | some p =>
          by_cases hfh : st.flagHolder ≠ some q
          · simp [step, captureF, hb, hfind, hfh]
          · have hsucc : step st (.capture q) = captureSucc st p := by
              simp [step, captureF, captureSucc, hb, hfind, hfh]
            rw [hsucc]
            exact bumpFlags_names st p.team
    | restart => exact ⟨rfl, rfl, rfl, rfl⟩
    | join c ip f =>
      obtain ⟨h1, h2⟩ := step_teams_frame st (.join c ip f) (by simp [isCaptureOp]) (by simp)
      rw [h1, h2]
      exact ⟨rfl, rfl, rfl, rfl⟩
    | update a b d =>
      obtain ⟨h1, h2⟩ := step_teams_frame st (.update a b d) (by simp [isCaptureOp]) (by simp)
      rw [h1, h2]
      exact ⟨rfl, rfl, rfl, rfl⟩
    | remove a =>
      obtain ⟨h1, h2⟩ := step_teams_frame st (.remove a) (by simp [isCaptureOp]) (by simp)
      rw [h1, h2]
      exact ⟨rfl, rfl, rfl, rfl⟩
    | leave a =>
      obtain ⟨h1, h2⟩ := step_teams_frame st (.leave a) (by simp [isCaptureOp]) (by simp)
      rw [h1, h2]
      exact ⟨rfl, rfl, rfl, rfl⟩
    | obtain a =>
      obtain ⟨h1, h2⟩ := step_teams_frame st (.obtain a) (by simp [isCaptureOp]) (by simp)
      rw [h1, h2]
      exact ⟨rfl, rfl, rfl, rfl⟩
    | attack a b d =>
      obtain ⟨h1, h2⟩ := step_teams_frame st (.attack a b d) (by simp [isCaptureOp]) (by simp)
      rw [h1, h2]
      exact ⟨rfl, rfl, rfl, rfl⟩
    | heal a b d =>
      obtain ⟨h1, h2⟩ := step_teams_frame st (.heal a b d) (by simp [isCaptureOp]) (by simp)
      rw [h1, h2]
      exact ⟨rfl, rfl, rfl, rfl⟩
    | changeTeam a b =>
      obtain ⟨h1, h2⟩ := step_teams_frame st (.changeTeam a b) (by simp [isCaptureOp]) (by simp)
      rw [h1, h2]
      exact ⟨rfl, rfl, rfl, rfl⟩
  · intro hcap hres
    obtain ⟨h1, h2⟩ := step_teams_frame st op hcap hres
    rw [h1, h2]
    exact ⟨rfl, rfl⟩
  · intro hne
    by_cases hb : (pid == "" || !(hasPlayer st pid)) = true
    · simp [captureF, hb]
    · cases hfind : List.find? (fun p => p.id == pid) st.players with
      | none => simp [captureF, hb, hfind]
      | some p =>
        by_cases hfh : st.flagHolder ≠ some pid
        · simp [captureF, hb, hfind, hfh]
        · exfalso
          apply hne
          simp [captureF, hb, hfind, hfh]

theorem spec_C10_fix_w :
    ((step initState (Op.obtain "x")).blueTeam.name = initState.blueTeam.name ∧
     (step initState (Op.obtain "x")).blueTeam.flagsCaptured =
       initState.blueTeam.flagsCaptured) ∧
    (step initState Op.restart).blueTeam.flagsCaptured = 0 := by
  have h := spec_C10_fix initState (Op.obtain "x") "y"
  exact ⟨⟨h.1.1, (h.2.1 (by decide) (by decide)).1⟩, h.2.2.2.1⟩
